import Mathlib

/-!
Verification model of the `Autocomplete` React component
(`src/autocomplete.tsx`): the interaction state machine, debounced
filtering, selection toggling and active-index tracking.

Option values of the component are `T extends string | object`; at
runtime they are JavaScript values compared via `JSON.stringify`.
We model them with `JSValue` below; object fields keep their insertion
order, exactly as `JSON.stringify` observes them.
-/

mutual

/-- A JavaScript value as handled by the component: a string, a number,
a boolean, an array, or an object whose fields are kept in insertion
order. -/
inductive JSValue where
  | str : String → JSValue
  | num : Int → JSValue
  | bool : Bool → JSValue
  | arr : JSList → JSValue
  | obj : JSFields → JSValue

/-- A list of JavaScript values (array elements). -/
inductive JSList where
  | nil : JSList
  | cons : JSValue → JSList → JSList

/-- Object fields in insertion order. -/
inductive JSFields where
  | fnil : JSFields
  | fcons : String → JSValue → JSFields → JSFields

end

mutual

/-- `JSON.stringify`, the serialization the component uses for all
value comparisons (`JSON.stringify(v) === JSON.stringify(option)`).
Object keys are serialized in insertion order, exactly as
`JSON.stringify` does; character escaping inside strings is not
modelled (no value considered here needs it). -/
def stringify : JSValue → String
  | .str s => "\x22" ++ s ++ "\x22"
  | .num n => toString n
  | .bool b => if b then "true" else "false"
  | .arr xs => "[" ++ stringifyList xs ++ "]"
  | .obj fs => "\x7b" ++ stringifyFields fs ++ "\x7d"

/-- Comma-separated serialization of array elements. -/
def stringifyList : JSList → String
  | .nil => ""
  | .cons x .nil => stringify x
  | .cons x xs => stringify x ++ "," ++ stringifyList xs

/-- Comma-separated serialization of object fields, in insertion order. -/
def stringifyFields : JSFields → String
  | .fnil => ""
  | .fcons k v .fnil => "\x22" ++ k ++ "\x22:" ++ stringify v
  | .fcons k v fs => "\x22" ++ k ++ "\x22:" ++ stringify v ++ "," ++ stringifyFields fs

end

/-- JavaScript truthiness, as tested by the Enter handler's
`if (option)` guard: empty strings, `0` and `false` are falsy;
arrays and objects are always truthy. -/
def truthy : JSValue → Bool
  | .str s => s != ""
  | .num n => n != 0
  | .bool b => b
  | .arr _ => true
  | .obj _ => true

/-- The record `obj` with fields `a` mapped to 1 then `b` mapped to 2. -/
def objAB : JSValue := .obj (.fcons "a" (.num 1) (.fcons "b" (.num 2) .fnil))

/-- The record with the same two fields in the opposite insertion order. -/
def objBA : JSValue := .obj (.fcons "b" (.num 2) (.fcons "a" (.num 1) .fnil))

/-- `Array.prototype.findIndex` specialized to the predicate used at both
call sites (`(v) => JSON.stringify(v) === JSON.stringify(option)`):
index of the first member whose serialization equals the toggled
option's, or `-1` when there is none. -/
def jsFindIndex (option : JSValue) : List JSValue → Int
  | [] => -1
  | v :: vs =>
    if stringify v = stringify option then 0
    else
      let r := jsFindIndex option vs
      if r < 0 then -1 else r + 1

/-- The multiple-mode toggle body shared by the Enter handler and the
item click handler (autocomplete.tsx lines 189-196 and 242-249):
`findIndex` over serializations, then either
`prev.filter((_, i) => i !== index)` — which removes exactly the
element at position `index`, i.e. `List.eraseIdx` — or append. -/
def toggleSelection (prev : List JSValue) (option : JSValue) : List JSValue :=
  let index := jsFindIndex option prev
  if 0 ≤ index then prev.eraseIdx index.toNat else prev ++ [option]

/-- Modelled from the spec (section 4.3): removal of the first
structurally-equal member from the Selection, where structural equality
is identity of serializations. Used as the specification-side
description against which `toggleSelection` is compared. -/
def removeFirstEq : List JSValue → JSValue → Option (List JSValue)
  | [], _ => none
  | v :: vs, option =>
    if stringify v = stringify option then some vs
    else (removeFirstEq vs option).map (v :: ·)

/-- The pending debounce timer: `setTimeout` at effect time captures the
deadline plus the `options`, `inputValue` and `filterOptions` values of
the closure that will run when it fires. -/
structure Pending where
  fireAt : Nat
  opts : List JSValue
  input : String
  fo : Option (List JSValue → String → List JSValue)

/-- The component's state: the five `useState` hooks of `Autocomplete`
(`isOpen`, `activeIndex`, `selectedValues`, `inputValue`,
`filteredOptions`, `loadingState`), the props that drive the debounce
effect (`options`, `multiple`, `loading`, `filterOptions`), the pending
timer, and an instrumentation log recording each completed filter
recompute as a pair of completion time and the query it used. -/
structure AState where
  isOpen : Bool
  activeIndex : Option Nat
  selectedValues : List JSValue
  inputValue : String
  filteredOptions : List JSValue
  loadingState : Bool
  options : List JSValue
  multiple : Bool
  loading : Bool
  filterOptions : Option (List JSValue → String → List JSValue)
  pending : Option Pending
  recomputeLog : List (Nat × String)

/-- Host callbacks observed during one event: `onChange` receives the
bare option in single mode or the full array in multiple mode;
`onInputChange` receives the new text. -/
structure Out where
  changeCalls : List (JSValue ⊕ List JSValue)
  inputChangeCalls : List String

/-- No host callback fired. -/
def noOut : Out := { changeCalls := [], inputChangeCalls := [] }

/-- `filterOptions?.(options, ..inputValue..) ?? options`: the filter
recompute, identity when no predicate is supplied. -/
def runFilter (fo : Option (List JSValue → String → List JSValue))
    (options : List JSValue) (inputValue : String) : List JSValue :=
  match fo with
  | some f => f options inputValue
  | none => options

/-- Debounce delay: `const debounceDelay = 1000`. -/
def debounceDelay : Nat := 1000

/-- One run of the debounce `useEffect` (autocomplete.tsx lines
103-122) at time `t`, after its dependencies changed: the previous
effect's cleanup clears any pending timer; then, if `loading` is false
the filter runs immediately, otherwise `loadingState` is set and a
timer is scheduled that captures the current `options`, `inputValue`
and `filterOptions`.  Note the immediate branch never touches
`loadingState`. -/
def effectRun (t : Nat) (st : AState) : AState :=
  let st' := { st with pending := none }
  if st'.loading then
    { st' with
        loadingState := true,
        pending := some
          { fireAt := t + debounceDelay, opts := st'.options,
            input := st'.inputValue, fo := st'.filterOptions } }
  else
    { st' with
        filteredOptions := runFilter st'.filterOptions st'.options st'.inputValue,
        recomputeLog := st'.recomputeLog ++ [(t, st'.inputValue)] }

/-- The scheduled timeout fires: the captured filter runs, the filtered
view is replaced, `loadingState` is cleared and the recompute is
logged at its deadline. `activeIndex` is not touched. -/
def fireTimer (st : AState) : AState :=
  match st.pending with
  | some p =>
    { st with
        filteredOptions := runFilter p.fo p.opts p.input,
        loadingState := false,
        pending := none,
        recomputeLog := st.recomputeLog ++ [(p.fireAt, p.input)] }
  | none => st

/-- Fire the pending timer only when its deadline has been reached by
time `t`. -/
def fireDue (t : Nat) (st : AState) : AState :=
  match st.pending with
  | some p => if p.fireAt ≤ t then fireTimer st else st
  | none => st

/-- `handleInputClick` (autocomplete.tsx lines 158-161): opens the
panel and sets the active index to 0 — unconditionally, whatever the
filtered view's length. -/
def handleInputClick (st : AState) : AState :=
  { st with isOpen := true, activeIndex := some 0 }

/-- The input's `onChange` handler (autocomplete.tsx lines 175-181)
followed by the debounce effect its `inputValue` dependency triggers:
store the new text, fire `onInputChange`, force the panel open, set
the active index to 0 unconditionally, then run the effect. -/
def handleInputChange (t : Nat) (st : AState) (value : String) : AState × Out :=
  let st' := { st with inputValue := value, isOpen := true, activeIndex := some 0 }
  (effectRun t st', { changeCalls := [], inputChangeCalls := [value] })

/-- A change of the `options` prop at time `t`, which re-runs the
debounce effect (an effect dependency). -/
def stepSetOptions (t : Nat) (os : List JSValue) (st : AState) : AState :=
  effectRun t { st with options := os }

/-- A change of the `loading` prop at time `t`, which re-runs the
debounce effect (an effect dependency). -/
def stepSetLoading (t : Nat) (b : Bool) (st : AState) : AState :=
  effectRun t { st with loading := b }

/-- The Enter branch of the input's `onKeyDown` handler
(autocomplete.tsx lines 182-208): requires the panel open and a
non-null active index, resolves `filteredOptions[activeIndex]`, and the
`if (option)` guard skips a falsy option (`undefined` from an
out-of-bounds index, or an empty-string option).  In multiple mode the
selection is toggled and `onChange` receives the full new array with
the panel left as it was; in single mode `onChange` receives the bare
option and the panel closes. -/
def handleEnter (st : AState) : AState × Out :=
  if st.isOpen then
    match st.activeIndex with
    | some i =>
      match st.filteredOptions[i]? with
      | some option =>
        if truthy option then
          if st.multiple then
            let newValues := toggleSelection st.selectedValues option
            ({ st with selectedValues := newValues },
             { changeCalls := [Sum.inr newValues], inputChangeCalls := [] })
          else
            ({ st with isOpen := false },
             { changeCalls := [Sum.inl option], inputChangeCalls := [] })
        else (st, noOut)
      | none => (st, noOut)
    | none => (st, noOut)
  else (st, noOut)

/-- The `onClick` handler of the rendered item at position `i` of the
filtered view (autocomplete.tsx lines 240-256); only rendered options
are clickable, so the handler closes over `filteredOptions[i]`.  No
truthiness guard here.  Multiple mode toggles and keeps the panel
state; single mode fires `onChange` with the bare option and closes. -/
def handleItemClick (st : AState) (i : Nat) : AState × Out :=
  match st.filteredOptions[i]? with
  | some option =>
    if st.multiple then
      let newValues := toggleSelection st.selectedValues option
      ({ st with selectedValues := newValues },
       { changeCalls := [Sum.inr newValues], inputChangeCalls := [] })
    else
      ({ st with isOpen := false },
       { changeCalls := [Sum.inl option], inputChangeCalls := [] })
  | none => (st, noOut)

/-- Initial `selectedValues`:
`multiple && value ? (Array.isArray(value) ? value : [value]) : []`.
A scalar `value` is wrapped only when truthy (JavaScript `&&`). -/
def initSelected (multiple : Bool) (value : Option (JSValue ⊕ List JSValue)) :
    List JSValue :=
  if multiple then
    match value with
    | some (Sum.inl v) => if truthy v then [v] else []
    | some (Sum.inr l) => l
    | none => []
  else []

/-- The component's state right after the `useState` initializers run:
closed, no active index, empty query, filtered view seeded with the
full option set, `loadingState` false, no timer. -/
def initState (options : List JSValue) (multiple loading : Bool)
    (fo : Option (List JSValue → String → List JSValue))
    (value : Option (JSValue ⊕ List JSValue)) : AState :=
  { isOpen := false
    activeIndex := none
    selectedValues := initSelected multiple value
    inputValue := ""
    filteredOptions := options
    loadingState := false
    options := options
    multiple := multiple
    loading := loading
    filterOptions := fo
    pending := none
    recomputeLog := [] }

/-- A burst of query changes: each entry is a change of the input text
at a given time; any timer whose deadline has passed fires first, then
the `onChange` handler and the debounce effect run. -/
def runChanges (st : AState) : List (Nat × String) → AState
  | [] => st
  | c :: cs => runChanges (handleInputChange c.1 (fireDue c.1 st) c.2).1 cs

/-- The display argument passed to `renderOption` and the `inputValue`
field of the state object passed with it (autocomplete.tsx lines
269-271): the option itself when it is a string, its serialization
otherwise — and always the literal empty string for `inputValue`. -/
def renderedItems (st : AState) : List (String × String) :=
  st.filteredOptions.map (fun option =>
    (match option with
     | .str s => s
     | v => stringify v, ""))

/-- Modelled from the spec: arrow-key navigation is implemented by the
`useListNavigation` hook of `@floating-ui/react` (configured at
autocomplete.tsx lines 145-152 with `loop: true`), whose source is not
part of this repository.  Spec section 4.4: ArrowDown moves the active
index forward by one, wrapping from the last index to index 0; with an
empty filtered view the index stays none. `n` is the filtered view's
length. -/
def onArrowDown (n : Nat) (idx : Option Nat) : Option Nat :=
  if n = 0 then none
  else
    match idx with
    | none => some 0
    | some i => if i + 1 < n then some (i + 1) else some 0

/-- Modelled from the spec: see `onArrowDown`.  Spec section 4.4:
ArrowUp moves the active index backward by one, wrapping from index 0
(or from none) to the last index; with an empty filtered view the
index stays none. -/
def onArrowUp (n : Nat) (idx : Option Nat) : Option Nat :=
  if n = 0 then none
  else
    match idx with
    | none => some (n - 1)
    | some i => if i = 0 then some (n - 1) else some (i - 1)

/-- The option set of the demo application (part_001): the strings
apple, banana, orange. -/
def demoOptions : List JSValue := [.str "apple", .str "banana", .str "orange"]

/-- A five-string option set used to exercise a shrinking recompute. -/
def fiveOptions : List JSValue :=
  [.str "a", .str "b", .str "c", .str "d", .str "e"]

/-- A state with the panel open, active index 2 on a five-item filtered
view, and a debounced recompute pending whose filter keeps only the
first two options. -/
def c1St : AState :=
  { initState fiveOptions false true (some (fun os _ => os.take 2)) none with
      isOpen := true
      activeIndex := some 2
      loadingState := true
      pending := some
        { fireAt := 1000, opts := fiveOptions, input := "q",
          fo := some (fun os _ => os.take 2) } }

/-- Single-mode open state on the demo options with active index 2
(the state reached by the spec's ArrowDown-twice scenario). -/
def w5St : AState :=
  { initState demoOptions false false none none with
      isOpen := true, activeIndex := some 2 }

/-- Single-mode open state whose only (and active) option is the empty
string. -/
def c5St : AState :=
  { initState [.str ""] false false none none with
      isOpen := true, activeIndex := some 0 }

/-- A freshly initialized component with an empty option set. -/
def c7St : AState := initState [] false false none none

/-- The state after mounting with `loading` true (the mount effect at
time 0 sets `loadingState` and schedules a timer for the empty query)
and then setting the `loading` prop to false at time 500, before the
timer's deadline. -/
def c9Final : AState :=
  stepSetLoading 500 false (effectRun 0 (initState demoOptions false true none none))

/-- A quiescent loading-mode component: mounted props with `loading`
true, no timer pending. -/
def c2St : AState := initState demoOptions false true none none

/-- Multiple-mode open state on the demo options with nothing selected. -/
def w4St : AState :=
  { initState demoOptions true false none none with isOpen := true }

/-- An open state whose query is the text an, with the single filtered
option banana (the spec's multiple-mode filtering scenario). -/
def w10St : AState :=
  { initState demoOptions true false none none with
      isOpen := true, inputValue := "an", filteredOptions := [.str "banana"] }

/-- The state an input change at time `t` with text `q` produces while
`loading` is true, whatever timer was pending beforehand: text stored,
panel open, cursor at 0, loading-in-progress set, and a fresh timer at
deadline `t` plus the delay capturing the current options and filter. -/
def burstState (st : AState) (t : Nat) (q : String) : AState :=
  { st with
      inputValue := q, isOpen := true, activeIndex := some 0,
      loadingState := true,
      pending := some
        { fireAt := t + debounceDelay, opts := st.options,
          input := q, fo := st.filterOptions } }

/-! ## Helper lemmas -/

theorem fireDue_of_not_due (t : Nat) (st : AState)
    (h : ∀ p, st.pending = some p → ¬ p.fireAt ≤ t) : fireDue t st = st := by
  cases hp : st.pending with
  | none => simp [fireDue, hp]
  | some p => simp [fireDue, hp, h p hp]

theorem step_burst (t : Nat) (q : String) (st : AState) (hl : st.loading = true)
    (hnd : ∀ p, st.pending = some p → ¬ p.fireAt ≤ t) :
    (handleInputChange t (fireDue t st) q).1 = burstState st t q := by
  rw [fireDue_of_not_due t st hnd]
  simp [handleInputChange, effectRun, burstState, hl]

theorem burstState_comp (st : AState) (t t' : Nat) (q q' : String) :
    burstState (burstState st t q) t' q' = burstState st t' q' := rfl

theorem chain_le_getLastD :
    ∀ (cs : List (Nat × String)) (c : Nat × String),
      List.Chain' (fun a b : Nat × String => a.1 ≤ b.1) (c :: cs) →
      c.1 ≤ (cs.getLastD c).1 := by
  intro cs
  induction cs with
  | nil => intro c _; simp [List.getLastD]
  | cons d ds ih =>
    intro c h
    rw [List.chain'_cons] at h
    rw [List.getLastD_cons]
    exact le_trans h.1 (ih d h.2)

/-- A burst of input changes while `loading` is true, each arriving
before the pending deadline, collapses to the state scheduled by the
last change alone: every earlier timer is cancelled unfired. -/
theorem runChanges_burst :
    ∀ (cs : List (Nat × String)) (c : Nat × String) (st : AState),
      st.loading = true →
      (∀ p, st.pending = some p → c.1 < p.fireAt) →
      List.Chain' (fun a b : Nat × String => a.1 ≤ b.1) (c :: cs) →
      (cs.getLastD c).1 < c.1 + debounceDelay →
      runChanges st (c :: cs) = burstState st (cs.getLastD c).1 (cs.getLastD c).2 := by
  intro cs
  induction cs with
  | nil =>
    intro c st hl hp _ _
    show (handleInputChange c.1 (fireDue c.1 st) c.2).1 = _
    rw [step_burst c.1 c.2 st hl (fun p hp' => by have := hp p hp'; omega)]
    rfl
  | cons d ds ih =>
    intro c st hl hp hchain hwin
    rw [List.chain'_cons] at hchain
    rw [List.getLastD_cons] at hwin
    have hdlast : d.1 ≤ (ds.getLastD d).1 := chain_le_getLastD ds d hchain.2
    show runChanges (handleInputChange c.1 (fireDue c.1 st) c.2).1 (d :: ds) = _
    rw [step_burst c.1 c.2 st hl (fun p hp' => by have := hp p hp'; omega)]
    have h1 : (burstState st c.1 c.2).loading = true := hl
    have h2 : ∀ p, (burstState st c.1 c.2).pending = some p → d.1 < p.fireAt := by
      intro p hp'
      simp only [burstState, Option.some.injEq] at hp'
      rw [← hp']
      show d.1 < c.1 + debounceDelay
      omega
    have h3 : (ds.getLastD d).1 < d.1 + debounceDelay := by
      have := hchain.1
      omega
    rw [ih d (burstState st c.1 c.2) h1 h2 hchain.2 h3]
    rw [List.getLastD_cons]
    exact burstState_comp st c.1 (ds.getLastD d).1 c.2 (ds.getLastD d).2

theorem fireDue_loading (t : Nat) (st : AState) :
    (fireDue t st).loading = st.loading := by
  cases h : st.pending with
  | none => simp [fireDue, h]
  | some p => by_cases ht : p.fireAt ≤ t <;> simp [fireDue, h, ht, fireTimer]

theorem handleInputChange_loading (t : Nat) (st : AState) (q : String) :
    ((handleInputChange t st q).1).loading = st.loading := by
  by_cases h : st.loading <;> simp [handleInputChange, effectRun, h]

theorem handleInputChange_loadingState (t : Nat) (st : AState) (q : String)
    (hl : st.loading = true) :
    ((handleInputChange t st q).1).loadingState = true := by
  simp [handleInputChange, effectRun, hl]

theorem runChanges_loadingState :
    ∀ (cs : List (Nat × String)) (st : AState), st.loading = true → cs ≠ [] →
      (runChanges st cs).loadingState = true := by
  intro cs
  induction cs with
  | nil => intro st _ h; exact absurd rfl h
  | cons c cs ih =>
    intro st hl _
    cases cs with
    | nil =>
      show ((handleInputChange c.1 (fireDue c.1 st) c.2).1).loadingState = true
      exact handleInputChange_loadingState _ _ _ ((fireDue_loading c.1 st).trans hl)
    | cons d ds =>
      show (runChanges ((handleInputChange c.1 (fireDue c.1 st) c.2).1)
        (d :: ds)).loadingState = true
      exact ih _
        ((handleInputChange_loading _ _ _).trans ((fireDue_loading c.1 st).trans hl))
        (by simp)

theorem jsFindIndex_of_none (option : JSValue) :
    ∀ vs : List JSValue, removeFirstEq vs option = none → jsFindIndex option vs = -1 := by
  intro vs
  induction vs with
  | nil => intro _; rfl
  | cons v vs ih =>
    intro h
    by_cases hc : stringify v = stringify option
    · simp [removeFirstEq, hc] at h
    · simp only [removeFirstEq, if_neg hc, Option.map_eq_none'] at h
      simp [jsFindIndex, hc, ih h]

theorem jsFindIndex_of_some (option : JSValue) :
    ∀ (vs l : List JSValue), removeFirstEq vs option = some l →
      ∃ n : Nat, jsFindIndex option vs = (n : Int) ∧ vs.eraseIdx n = l := by
  intro vs
  induction vs with
  | nil => intro l h; simp [removeFirstEq] at h
  | cons v vs ih =>
    intro l h
    by_cases hc : stringify v = stringify option
    · simp only [removeFirstEq, if_pos hc, Option.some.injEq] at h
      exact ⟨0, by simp [jsFindIndex, hc], by simp [List.eraseIdx, h]⟩
    · simp only [removeFirstEq, if_neg hc, Option.map_eq_some'] at h
      obtain ⟨l', hl', rfl⟩ := h
      obtain ⟨n, hn, he⟩ := ih l' hl'
      refine ⟨n + 1, ?_, ?_⟩
      · simp only [jsFindIndex, if_neg hc, hn]
        have hnn : ¬ ((n : Int) < 0) := by omega
        simp [hnn]
      · simp [List.eraseIdx, he]

/-- The toggle written with `findIndex` and index filtering computes
exactly the spec's description: remove the first structurally-equal
member when present, append to the end otherwise. -/
theorem toggleSelection_eq_removeFirstEq (prev : List JSValue) (option : JSValue) :
    toggleSelection prev option =
      match removeFirstEq prev option with
      | some l => l
      | none => prev ++ [option] := by
  cases h : removeFirstEq prev option with
  | none =>
    have h1 := jsFindIndex_of_none option prev h
    simp [toggleSelection, h1]
  | some l =>
    obtain ⟨n, hn, he⟩ := jsFindIndex_of_some option prev l h
    simp [toggleSelection, hn, he]

theorem removeFirstEq_eq_none (option : JSValue) :
    ∀ vs : List JSValue, removeFirstEq vs option = none ↔
      ∀ v ∈ vs, stringify v ≠ stringify option := by
  intro vs
  induction vs with
  | nil => simp [removeFirstEq]
  | cons v vs ih =>
    by_cases hc : stringify v = stringify option
    · simp [removeFirstEq, hc]
    · simp [removeFirstEq, hc, ih]

theorem removeFirstEq_append_self (option : JSValue) :
    ∀ vs : List JSValue, (∀ v ∈ vs, stringify v ≠ stringify option) →
      removeFirstEq (vs ++ [option]) option = some vs := by
  intro vs
  induction vs with
  | nil => intro _; simp [removeFirstEq]
  | cons v vs ih =>
    intro h
    have hv : stringify v ≠ stringify option := h v (by simp)
    have hrest : ∀ x ∈ vs, stringify x ≠ stringify option := by
      intro x hx; exact h x (by simp [hx])
    simp [removeFirstEq, hv, ih hrest]

theorem removeFirstEq_split (option : JSValue) :
    ∀ vs l : List JSValue, removeFirstEq vs option = some l →
      ∃ a m b, vs = a ++ m :: b ∧ stringify m = stringify option ∧
        (∀ v ∈ a, stringify v ≠ stringify option) ∧ l = a ++ b := by
  intro vs
  induction vs with
  | nil => intro l h; simp [removeFirstEq] at h
  | cons v vs ih =>
    intro l h
    by_cases hc : stringify v = stringify option
    · simp only [removeFirstEq, if_pos hc, Option.some.injEq] at h
      exact ⟨[], v, vs, by simp, hc, by simp, h.symm⟩
    · simp only [removeFirstEq, if_neg hc, Option.map_eq_some'] at h
      obtain ⟨l', hl', rfl⟩ := h
      obtain ⟨a, m, b, hvs, hm, ha, rfl⟩ := ih l' hl'
      exact ⟨v :: a, m, b, by simp [hvs], hm, by simpa [hc] using ha, by simp⟩

theorem effectRun_activeIndex (t : Nat) (st : AState) :
    (effectRun t st).activeIndex = st.activeIndex := by
  by_cases h : st.loading <;> simp [effectRun, h]

theorem effectRun_isOpen (t : Nat) (st : AState) :
    (effectRun t st).isOpen = st.isOpen := by
  by_cases h : st.loading <;> simp [effectRun, h]

theorem fireTimer_activeIndex (st : AState) :
    (fireTimer st).activeIndex = st.activeIndex := by
  cases h : st.pending <;> simp [fireTimer, h]

theorem fireDue_activeIndex (t : Nat) (st : AState) :
    (fireDue t st).activeIndex = st.activeIndex := by
  cases h : st.pending with
  | none => simp [fireDue, h]
  | some p =>
    by_cases ht : p.fireAt ≤ t <;>
      simp [fireDue, h, ht, fireTimer_activeIndex]

/-! ## Claim theorems -/

/-- C1, counterexample: from active index 2 on a five-item filtered
view, a debounced recompute that shrinks the view to two items leaves
the active index at 2 — out of bounds, not reset to none. -/
theorem activeIndex_stale_after_shrink :
    (fireTimer c1St).activeIndex = some 2
    ∧ (fireTimer c1St).filteredOptions.length = 2 :=
  ⟨rfl, rfl⟩

/-- C1, amended: the component never revalidates the active index
against the filtered view.  Recomputes — effect runs, timer firings,
options-prop changes — leave the active index untouched, and opening
the panel or changing the input text sets it to 0 unconditionally,
even when the filtered view is empty; it is never reset to none and
may therefore be out of bounds after the view shrinks. -/
theorem activeIndex_never_revalidated (st : AState) (t : Nat) (s : String)
    (os : List JSValue) :
    (effectRun t st).activeIndex = st.activeIndex
    ∧ (fireTimer st).activeIndex = st.activeIndex
    ∧ (fireDue t st).activeIndex = st.activeIndex
    ∧ (stepSetOptions t os st).activeIndex = st.activeIndex
    ∧ (handleInputClick st).activeIndex = some 0
    ∧ ((handleInputChange t st s).1).activeIndex = some 0 :=
  ⟨effectRun_activeIndex t st, fireTimer_activeIndex st, fireDue_activeIndex t st,
   effectRun_activeIndex t _, rfl, effectRun_activeIndex t _⟩

/-- C3, counterexample: the records with fields a:1,b:2 and b:2,a:1
serialize differently, the membership test of the toggle does not find
one when the other is selected, and toggling therefore appends instead
of deselecting. -/
theorem keyOrder_no_deselect :
    stringify objAB ≠ stringify objBA
    ∧ jsFindIndex objBA [objAB] = -1
    ∧ (toggleSelection [objAB] objBA).map stringify
      = [stringify objAB, stringify objBA] :=
  ⟨by decide, by decide, by decide⟩

/-- C3, amended: structured records whose fields are equal but whose
keys appear in different insertion orders are treated as distinct by
the selection membership test (serialization preserves key order), so
toggling one never deselects the other — it is appended instead. -/
theorem keyOrder_records_distinct :
    jsFindIndex objBA [objAB] = -1
    ∧ jsFindIndex objAB [objBA] = -1
    ∧ (toggleSelection [objAB] objBA).map stringify
      = [stringify objAB, stringify objBA]
    ∧ (toggleSelection [objBA] objAB).map stringify
      = [stringify objBA, stringify objAB] :=
  ⟨by decide, by decide, by decide, by decide⟩

/-- C4: in multiple mode, clicking the option at a rendered index
toggles it — removing the first member with equal serialization when
present, appending it otherwise — leaves the panel open, and fires the
host change callback exactly once with the full updated sequence. -/
theorem multi_toggle_removes_or_appends (st : AState) (i : Nat) (option : JSValue)
    (hm : st.multiple = true) (ho : st.isOpen = true)
    (hi : st.filteredOptions[i]? = some option) :
    (handleItemClick st i).1.selectedValues =
      (match removeFirstEq st.selectedValues option with
       | some l => l
       | none => st.selectedValues ++ [option])
    ∧ (handleItemClick st i).1.isOpen = true
    ∧ (handleItemClick st i).2.changeCalls
      = [Sum.inr ((handleItemClick st i).1.selectedValues)] := by
  have hstep : handleItemClick st i =
      ({ st with selectedValues := toggleSelection st.selectedValues option },
       { changeCalls := [Sum.inr (toggleSelection st.selectedValues option)],
         inputChangeCalls := [] }) := by
    simp [handleItemClick, hi, hm]
  rw [hstep]
  exact ⟨toggleSelection_eq_removeFirstEq _ _, ho, rfl⟩

/-- C4, witness: clicking banana in an open multiple-mode panel with an
empty selection appends it and reports the new array. -/
theorem multi_toggle_removes_or_appends_witness :
    w4St.multiple = true ∧ w4St.isOpen = true
    ∧ w4St.filteredOptions[1]? = some (.str "banana")
    ∧ ((handleItemClick w4St 1).1.selectedValues =
        (match removeFirstEq w4St.selectedValues (.str "banana") with
         | some l => l
         | none => w4St.selectedValues ++ [.str "banana"])
      ∧ (handleItemClick w4St 1).1.isOpen = true
      ∧ (handleItemClick w4St 1).2.changeCalls
        = [Sum.inr ((handleItemClick w4St 1).1.selectedValues)]) :=
  ⟨rfl, rfl, rfl, multi_toggle_removes_or_appends w4St 1 (.str "banana") rfl rfl rfl⟩

/-- C5, counterexample: with the empty-string option active at a valid
index in single mode, Enter fires no change callback and leaves the
panel open — the handler's truthiness guard skips it. -/
theorem single_enter_empty_string_noop :
    c5St.multiple = false ∧ c5St.isOpen = true ∧ c5St.activeIndex = some 0
    ∧ c5St.filteredOptions[0]? = some (.str "")
    ∧ (handleEnter c5St).2.changeCalls = []
    ∧ (handleEnter c5St).1.isOpen = true :=
  ⟨rfl, rfl, rfl, rfl, rfl, rfl⟩

/-- C5, amended: in single mode, confirming the active option via
Enter fires the change callback exactly once with the bare option and
closes the panel provided the option is truthy (any object, or a
non-empty string); a pointer click confirms it with no truthiness
restriction.  Neither path consults the current selection, so this
holds even when the option is already selected. -/
theorem single_confirm_fires_once (st : AState) (i : Nat) (option : JSValue)
    (hm : st.multiple = false) (ho : st.isOpen = true) (ha : st.activeIndex = some i)
    (hi : st.filteredOptions[i]? = some option) :
    (truthy option = true →
      (handleEnter st).2.changeCalls = [Sum.inl option]
      ∧ (handleEnter st).1.isOpen = false)
    ∧ ((handleItemClick st i).2.changeCalls = [Sum.inl option]
      ∧ (handleItemClick st i).1.isOpen = false) := by
  constructor
  · intro ht
    simp [handleEnter, ho, ha, hi, ht, hm]
  · simp [handleItemClick, hi, hm]

/-- C5, witness: the spec's scenario — options apple, banana, orange,
single mode, active index 2 — where Enter reports orange once and
closes the panel. -/
theorem single_confirm_fires_once_witness :
    w5St.multiple = false ∧ w5St.isOpen = true ∧ w5St.activeIndex = some 2
    ∧ w5St.filteredOptions[2]? = some (.str "orange")
    ∧ truthy (.str "orange") = true
    ∧ (handleEnter w5St).2.changeCalls = [Sum.inl (.str "orange")]
    ∧ (handleEnter w5St).1.isOpen = false :=
  ⟨rfl, rfl, rfl, rfl, rfl,
   ((single_confirm_fires_once w5St 2 (.str "orange") rfl rfl rfl rfl).1 rfl).1,
   ((single_confirm_fires_once w5St 2 (.str "orange") rfl rfl rfl rfl).1 rfl).2⟩

/-- C6: on a non-empty filtered view of length n, ArrowDown wraps from
the last index to 0 and otherwise advances by one; ArrowUp wraps from
index 0 or from none to the last index and otherwise retreats by one;
on an empty view both leave the index at none. -/
theorem arrow_wraparound (n i : Nat) (j : Option Nat) :
    (0 < n → onArrowDown n (some (n - 1)) = some 0)
    ∧ (0 < n → onArrowUp n (some 0) = some (n - 1))
    ∧ (0 < n → onArrowUp n none = some (n - 1))
    ∧ (i + 1 < n → onArrowDown n (some i) = some (i + 1))
    ∧ (0 < i → i < n → onArrowUp n (some i) = some (i - 1))
    ∧ onArrowDown 0 j = none ∧ onArrowUp 0 j = none := by
  refine ⟨?_, ?_, ?_, ?_, ?_, rfl, rfl⟩
  · intro hn
    have h0 : ¬ n = 0 := by omega
    have h1 : ¬ (n - 1 + 1 < n) := by omega
    simp [onArrowDown, h0, h1]
  · intro hn
    have h0 : ¬ n = 0 := by omega
    simp [onArrowUp, h0]
  · intro hn
    have h0 : ¬ n = 0 := by omega
    simp [onArrowUp, h0]
  · intro hi
    have h0 : ¬ n = 0 := by omega
    simp [onArrowDown, h0, hi]
  · intro hi _
    have h0 : ¬ n = 0 := by omega
    have h1 : ¬ i = 0 := by omega
    simp [onArrowUp, h0, h1]

/-- C6, witness: length 3 — ArrowDown from 2 wraps to 0, ArrowUp from
0 and from none wrap to 2, interior moves step by one, and arrows on an
empty view stay at none. -/
theorem arrow_wraparound_witness :
    onArrowDown 3 (some 2) = some 0 ∧ onArrowUp 3 (some 0) = some 2
    ∧ onArrowUp 3 none = some 2 ∧ onArrowDown 3 (some 1) = some 2
    ∧ onArrowUp 3 (some 1) = some 0
    ∧ onArrowDown 0 none = none ∧ onArrowUp 0 none = none :=
  ⟨(arrow_wraparound 3 1 none).1 (by decide),
   (arrow_wraparound 3 1 none).2.1 (by decide),
   (arrow_wraparound 3 1 none).2.2.1 (by decide),
   (arrow_wraparound 3 1 none).2.2.2.1 (by decide),
   (arrow_wraparound 3 1 none).2.2.2.2.1 (by decide) (by decide),
   (arrow_wraparound 3 1 none).2.2.2.2.2.1,
   (arrow_wraparound 3 1 none).2.2.2.2.2.2⟩

/-- C7, counterexample: clicking the input of a component whose
filtered view is empty sets the active index to 0, not to none. -/
theorem open_empty_view_sets_zero :
    c7St.filteredOptions = [] ∧ (handleInputClick c7St).activeIndex = some 0 :=
  ⟨rfl, rfl⟩

/-- C7, amended: opening the panel and changing the input text
re-anchor the navigation cursor to index 0 unconditionally — also when
the filtered view is empty — force the panel open, and the text change
fires the host input-change callback with the new text. -/
theorem reanchor_unconditional_zero (st : AState) (t : Nat) (s : String) :
    (handleInputClick st).activeIndex = some 0
    ∧ (handleInputClick st).isOpen = true
    ∧ ((handleInputChange t st s).1).activeIndex = some 0
    ∧ ((handleInputChange t st s).1).isOpen = true
    ∧ (handleInputChange t st s).2.inputChangeCalls = [s] :=
  ⟨rfl, rfl, effectRun_activeIndex t _, effectRun_isOpen t _, rfl⟩

/-- C8, counterexample: toggling the string a twice on the selection
a, b yields b, a — the toggled member moves to the end, so the result
is not deep-equal to the prior selection. -/
theorem toggle_twice_moves_to_end :
    ((toggleSelection (toggleSelection [.str "a", .str "b"] (.str "a")) (.str "a")).map
        stringify
      = [stringify (.str "b"), stringify (.str "a")])
    ∧ ([stringify (.str "b"), stringify (.str "a")]
      ≠ (([.str "a", .str "b"] : List JSValue).map stringify)) :=
  ⟨by decide, by decide⟩

/-- C8, amended: for a selection whose members have pairwise distinct
serializations, toggling the same option twice returns the selection
to a permutation of its prior value (the toggled member is removed
where it stood and re-appended at the end); it is pointwise equal only
when the option was absent or was the last member. -/
theorem toggle_twice_permutes (sel : List JSValue) (option : JSValue)
    (h : (sel.map stringify).Nodup) :
    ((toggleSelection (toggleSelection sel option) option).map stringify).Perm
      (sel.map stringify) := by
  rw [toggleSelection_eq_removeFirstEq sel option]
  cases h1 : removeFirstEq sel option with
  | none =>
    have hn := (removeFirstEq_eq_none option sel).mp h1
    rw [toggleSelection_eq_removeFirstEq, removeFirstEq_append_self option sel hn]
  | some l =>
    obtain ⟨a, m, b, rfl, hm, ha, rfl⟩ := removeFirstEq_split option sel l h1
    have hb : ∀ v ∈ b, stringify v ≠ stringify option := by
      intro v hv
      have hnotin : stringify m ∉ (b.map stringify) := by
        simp only [List.map_append, List.map_cons, List.nodup_append] at h
        have h2 := h.2.1
        simp only [List.nodup_cons] at h2
        exact h2.1
      intro hcontra
      exact hnotin (by
        rw [← hm] at hcontra
        exact hcontra ▸ List.mem_map_of_mem stringify hv)
    have hab : ∀ v ∈ a ++ b, stringify v ≠ stringify option := by
      intro v hv
      rcases List.mem_append.mp hv with h' | h'
      · exact ha v h'
      · exact hb v h'
    rw [toggleSelection_eq_removeFirstEq,
        (removeFirstEq_eq_none option (a ++ b)).mpr hab]
    simp only [List.map_append, List.map_cons, List.map_singleton]
    rw [hm, List.append_assoc]
    exact List.Perm.append_left _ (List.perm_append_singleton _ _)

/-- C8, witness: toggling a twice on the duplicate-free selection a, b
yields a permutation of it. -/
theorem toggle_twice_permutes_witness :
    ((([.str "a", .str "b"] : List JSValue).map stringify).Nodup)
    ∧ ((toggleSelection (toggleSelection [.str "a", .str "b"] (.str "a"))
          (.str "a")).map stringify).Perm
        (([.str "a", .str "b"] : List JSValue).map stringify) :=
  ⟨by decide, toggle_twice_permutes [.str "a", .str "b"] (.str "a") (by decide)⟩

/-- C9: mounting with loading true schedules a debounced recompute and
sets the loading-in-progress flag; flipping the loading prop to false
at time 500 cancels the timer and recomputes immediately, but the flag
is never cleared — it remains true although loading is false, and no
later immediate recompute ever clears it. -/
theorem loading_flag_stuck_after_unset :
    c9Final.loading = false ∧ c9Final.pending = none
    ∧ c9Final.filteredOptions = demoOptions
    ∧ c9Final.recomputeLog = [(500, "")]
    ∧ c9Final.loadingState = true :=
  ⟨rfl, rfl, rfl, rfl, rfl⟩

/-- C10: every rendered option passes the literal empty string as the
state's inputValue to the render hook; whenever the current query is
non-empty, what the hook sees differs from the query. -/
theorem renderOption_gets_empty_input (st : AState) (p : String × String)
    (hp : p ∈ renderedItems st) :
    p.2 = "" ∧ (st.inputValue ≠ "" → p.2 ≠ st.inputValue) := by
  obtain ⟨o, _, rfl⟩ := List.mem_map.mp hp
  exact ⟨rfl, fun h hc => h hc.symm⟩

/-- C10, witness: with the query an and the filtered option banana,
the render hook receives the empty string, which differs from the
query. -/
theorem renderOption_gets_empty_input_witness :
    (("banana", "") ∈ renderedItems w10St)
    ∧ (("banana", "") : String × String).2 = ""
    ∧ ((("banana", "") : String × String).2 ≠ w10St.inputValue) :=
  ⟨by decide,
   (renderOption_gets_empty_input w10St ("banana", "") (by decide)).1,
   (renderOption_gets_empty_input w10St ("banana", "") (by decide)).2 (by decide)⟩

/-- C2: with loading true and no timer pending, a chronological burst
of input changes whose whole window is shorter than the debounce delay,
followed by quiescence, produces exactly one recompute — logged at the
last change's time plus the delay, filtering with the last text — after
which the loading-in-progress flag is clear; until quiescence exactly
the last change's timer is pending (each change cancelled its
predecessor's), and after every nonempty burst of changes the
loading-in-progress flag is set. -/
theorem debounce_coalesces (st : AState) (c : Nat × String) (cs : List (Nat × String))
    (hl : st.loading = true) (hp : st.pending = none)
    (hchain : List.Chain' (fun a b : Nat × String => a.1 ≤ b.1) (c :: cs))
    (hwin : (cs.getLastD c).1 < c.1 + debounceDelay) :
    (fireTimer (runChanges st (c :: cs))).recomputeLog
      = st.recomputeLog ++ [((cs.getLastD c).1 + debounceDelay, (cs.getLastD c).2)]
    ∧ (fireTimer (runChanges st (c :: cs))).filteredOptions
      = runFilter st.filterOptions st.options (cs.getLastD c).2
    ∧ (fireTimer (runChanges st (c :: cs))).loadingState = false
    ∧ (runChanges st (c :: cs)).pending
      = some { fireAt := (cs.getLastD c).1 + debounceDelay, opts := st.options,
               input := (cs.getLastD c).2, fo := st.filterOptions }
    ∧ (∀ ds : List (Nat × String), ds ≠ [] → (runChanges st ds).loadingState = true) := by
  have hrb := runChanges_burst cs c st hl (fun p hp' => by simp [hp] at hp') hchain hwin
  rw [hrb]
  refine ⟨?_, ?_, ?_, ?_, fun ds hds => runChanges_loadingState ds st hl hds⟩
  all_goals simp [burstState, fireTimer, runFilter]

/-- C2, witness: the spec's timing scenario — loading true, a change to
the text a at time 0 and to the text ap at time 200 — yields exactly
one recompute, at time 1200 with query ap. -/
theorem debounce_coalesces_witness :
    c2St.loading = true ∧ c2St.pending = none
    ∧ List.Chain' (fun a b : Nat × String => a.1 ≤ b.1) [(0, "a"), (200, "ap")]
    ∧ (fireTimer (runChanges c2St [(0, "a"), (200, "ap")])).recomputeLog = [(1200, "ap")]
    ∧ (fireTimer (runChanges c2St [(0, "a"), (200, "ap")])).filteredOptions = demoOptions
    ∧ (fireTimer (runChanges c2St [(0, "a"), (200, "ap")])).loadingState = false
    ∧ (runChanges c2St [(0, "a"), (200, "ap")]).pending
      = some { fireAt := 1200, opts := demoOptions, input := "ap", fo := none } :=
  ⟨rfl, rfl, List.Chain'.cons (by decide) (List.chain'_singleton _),
   (debounce_coalesces c2St (0, "a") [(200, "ap")] rfl rfl
     (List.Chain'.cons (by decide) (List.chain'_singleton _)) (by decide)).1,
   (debounce_coalesces c2St (0, "a") [(200, "ap")] rfl rfl
     (List.Chain'.cons (by decide) (List.chain'_singleton _)) (by decide)).2.1,
   (debounce_coalesces c2St (0, "a") [(200, "ap")] rfl rfl
     (List.Chain'.cons (by decide) (List.chain'_singleton _)) (by decide)).2.2.1,
   (debounce_coalesces c2St (0, "a") [(200, "ap")] rfl rfl
     (List.Chain'.cons (by decide) (List.chain'_singleton _)) (by decide)).2.2.2.1⟩
